import Mathlib

/-!
# Verification of the mbodze-beauty-shop offline-first sync engine

This file gives a shallow embedding, in Lean 4, of the sync core of the
mbodze-beauty-shop point-of-sale application: the Dexie-backed mutation
queue (`offlineQueue.ts`), the pull/push sync engine (`sync.ts`), the
Dexie schema (`db.ts`), and the stock classification of the products
screen (`Products.tsx`).  Asynchronous Dexie tables are modelled as pure
key-value stores (`Store α = String → Option α`); the mutation table,
whose iteration order matters, is modelled as a list of records together
with the IndexedDB index-iteration semantics; Supabase calls are modelled
by an oracle (`PushEnv`) that decides the outcome of each network call,
and the stream of `uuidv4()` results is modelled by the injective stream
`uuidOf`.  Theorems about these definitions settle the specification
claims about queue ordering, identifier remapping, retry accounting,
preflight abort, pull idempotence and stock classification.
-/

/-! ## Generic key-value stores

IndexedDB object stores are key-value maps keyed by a string primary key.
`put` replaces-or-adds, `delete` removes, and Dexie's `Table.update`
modifies the record only when it is present. -/

def Store (α : Type) : Type := String → Option α

def putAt {α : Type} (s : Store α) (k : String) (v : α) : Store α :=
  fun x => if x = k then some v else s x

def delAt {α : Type} (s : Store α) (k : String) : Store α :=
  fun x => if x = k then none else s x

def updAt {α : Type} (s : Store α) (k : String) (f : α → α) : Store α :=
  fun x => if x = k then (s k).map f else s x

def emptyStore {α : Type} : Store α := fun _ => none

/-! ## Association lists for the in-memory `idMappings` object

`idMappings` is a plain JS object `Record<string, string>`; assignment
overwrites, lookup returns the current binding. -/

def lookupA : List (String × String) → String → Option String
  | [], _ => none
  | (k, v) :: rest, x => if x = k then some v else lookupA rest x

def removeKey : List (String × String) → String → List (String × String)
  | [], _ => []
  | (k1, v1) :: rest, k => if k1 = k then removeKey rest k else (k1, v1) :: removeKey rest k

def upsertA (l : List (String × String)) (k v : String) : List (String × String) :=
  (k, v) :: removeKey l k

/-! ## Payloads

Mutation payloads are JS objects `Record<string, any>`; the sync engine
reads and writes only the string-valued fields `id`, `product_id` and
deletes the key `synced`, so a payload is modelled as an association list
of string fields. -/

def payloadGet (p : List (String × String)) (k : String) : Option String :=
  lookupA p k

def payloadSet (p : List (String × String)) (k v : String) : List (String × String) :=
  upsertA p k v

def payloadDel (p : List (String × String)) (k : String) : List (String × String) :=
  removeKey p k

/-- JS `s.startsWith(pre)`, decided over the code-unit sequences (the
semantics JS gives to string operations). -/
def jsStartsWith (s pre : String) : Bool :=
  pre.data.isPrefixOf s.data

/-- Helper for `jsIncludes`: does the needle occur at some position of
the haystack? -/
def containsAt : List Char → List Char → Bool
  | [], needle => needle.isEmpty
  | c :: rest, needle => needle.isPrefixOf (c :: rest) || containsAt rest needle

/-- JS `message?.includes(needle)`, decided over the code-unit
sequences. -/
def containsSubstr (hay needle : String) : Bool :=
  containsAt hay.data needle.data

/-! ## Data model (`db.ts`) -/

/-- `MutationTable` of `offlineQueue.ts`. -/
inductive MTable
  | products
  | sales
  | notifications
  | settings
  | images
deriving DecidableEq, Repr

/-- `MutationOperation` of `offlineQueue.ts`. -/
inductive MOp
  | INSERT
  | UPDATE
  | DELETE
deriving DecidableEq, Repr

/-- Mutation `status` field. -/
inductive MStatus
  | pending
  | synced
  | failed
deriving DecidableEq, Repr

/-- `MutationRecord` interface of `db.ts`.  `timestamp` is `Date.now()`
(milliseconds, a natural number). -/
structure MutationRecord where
  id : String
  clientId : String
  table : MTable
  operation : MOp
  recordId : String
  payload : List (String × String)
  timestamp : Nat
  status : MStatus
  retries : Nat
  lastError : Option String
deriving DecidableEq, Repr

/-- `LocalProduct` interface of `db.ts`.  Currency and quantity fields are
integers in every scenario exercised by the application. -/
structure LocalProduct where
  id : String
  name : String
  category : String
  buying_price : Int
  selling_price : Int
  quantity : Int
  low_stock_level : Int
  image_url : Option String
  image_id : Option String
  created_at : String
  updated_at : String
  synced : Bool
  lastSyncedAt : Option String
deriving DecidableEq, Repr

/-- `LocalSale` interface of `db.ts`. -/
structure LocalSale where
  id : String
  product_id : String
  product_name : String
  quantity_sold : Int
  unit_price : Int
  total_price : Int
  sale_date : String
  created_at : String
  synced : Bool
  lastSyncedAt : Option String
deriving DecidableEq, Repr

/-- `LocalNotification` interface of `db.ts` (no `lastSyncedAt` field). -/
structure LocalNotification where
  id : String
  type : String
  message : String
  product_id : Option String
  created_at : String
  cleared : Bool
  synced : Bool
deriving DecidableEq, Repr

/-- `LocalSetting` interface of `db.ts`; the arbitrary `value` is
modelled as its serialized string. -/
structure LocalSetting where
  id : String
  key : String
  value : String
  created_at : String
  updated_at : String
  synced : Bool
deriving DecidableEq, Repr

/-! ## Mutation queue (`offlineQueue.ts`)

The Dexie schema declares `mutations: '&id, status, table, timestamp'`:
primary key `id`, secondary indexes on `status`, `table`, `timestamp`.
`db.mutations.where('status').equals('pending').toArray()` iterates the
`status` index; IndexedDB stores index entries sorted by
(index key, primary key), so for a single index value the result is the
matching records in ascending primary-key (`id`) order, regardless of
insertion order.  The queue itself is modelled as the list of records in
arbitrary insertion order. -/

/-- Ordering of mutation records by primary key, the order in which the
`status` index hands back records with an equal status value. -/
def idLe (a b : MutationRecord) : Prop := a.id.data ≤ b.id.data

instance : DecidableRel idLe := fun a b => inferInstanceAs (Decidable (a.id.data ≤ b.id.data))

instance : IsTotal MutationRecord idLe := ⟨fun a b => le_total a.id.data b.id.data⟩

instance : IsTrans MutationRecord idLe := ⟨fun _ _ _ hab hbc => le_trans hab hbc⟩

/-- `getPendingMutations` of `offlineQueue.ts`:
`db.mutations.where('status').equals('pending').toArray()` — the pending
records, in the `status`-index iteration order (ascending `id`). -/
def getPendingMutations (q : List MutationRecord) : List MutationRecord :=
  List.insertionSort idLe (q.filter (fun m => m.status == MStatus.pending))

/-- `db.mutations.get(mutationId)`: primary-key lookup. -/
def findById (q : List MutationRecord) (mid : String) : Option MutationRecord :=
  q.find? (fun m => m.id == mid)

/-- `markMutationSynced` of `offlineQueue.ts`:
`db.mutations.update(mutationId, { status: 'synced' })`. -/
def markSyncedQ (q : List MutationRecord) (mid : String) : List MutationRecord :=
  q.map fun m => if m.id = mid then { m with status := MStatus.synced } else m

/-- `markMutationFailed` of `offlineQueue.ts`: load the record, increment
`retries`; status becomes `failed` once `newRetries >= 5` (`maxRetries`),
else stays `pending`; store the error text. -/
def markMutationFailed (q : List MutationRecord) (mid : String) (err : String) :
    List MutationRecord :=
  match findById q mid with
  | none => q
  | some m =>
    let newRetries := m.retries + 1
    let newStatus := if 5 ≤ newRetries then MStatus.failed else MStatus.pending
    q.map fun x =>
      if x.id = mid then
        { x with status := newStatus, retries := newRetries, lastError := some err }
      else x

/-- `clearSyncedMutations` of `offlineQueue.ts`:
`db.mutations.where('status').equals('synced').delete()`. -/
def clearSyncedMutations (q : List MutationRecord) : List MutationRecord :=
  q.filter (fun m => !(m.status == MStatus.synced))

/-- `retryFailedMutation` of `offlineQueue.ts`:
`db.mutations.update(mutationId, { status: 'pending', retries: 0,
lastError: undefined })`. -/
def retryFailedMutation (q : List MutationRecord) (mid : String) : List MutationRecord :=
  q.map fun m =>
    if m.id = mid then { m with status := MStatus.pending, retries := 0, lastError := none }
    else m

/-! ## Supabase result modelling -/

/-- A Supabase `error` value: `code` and `message`. -/
structure SupaError where
  code : String
  message : String
deriving DecidableEq, Repr

/-- The relation-not-found test of `sync.ts`:
`error?.code === 'PGRST205' || error?.message?.includes("Could not find the table")`. -/
def isRelationNotFound (e : SupaError) : Bool :=
  e.code == "PGRST205" || containsSubstr e.message "Could not find the table"

/-- Result of a `select('*')` pull query: rows, or an error value. -/
inductive FetchResult (α : Type)
  | ok (rows : List α)
  | err (e : SupaError)

/-- A remote `products` row as read by the pull, field for field. -/
structure RemoteProduct where
  id : String
  name : String
  category : String
  buying_price : Int
  selling_price : Int
  quantity : Int
  low_stock_level : Int
  image_url : Option String
  created_at : String
  updated_at : String
deriving DecidableEq, Repr

/-! ## Pull reconciler (`sync.ts`, `syncProductsFromSupabase`) -/

/-- The record written by `db.products.put({...})` in the pull loop:
every field copied from the remote row, `synced: true`,
`lastSyncedAt: new Date().toISOString()`; `image_id` is not among the
fields of the put object, so the replaced record has none. -/
def remoteToLocal (r : RemoteProduct) (now : String) : LocalProduct :=
  { id := r.id
    name := r.name
    category := r.category
    buying_price := r.buying_price
    selling_price := r.selling_price
    quantity := r.quantity
    low_stock_level := r.low_stock_level
    image_url := r.image_url
    image_id := none
    created_at := r.created_at
    updated_at := r.updated_at
    synced := true
    lastSyncedAt := some now }

/-- The merge loop of `syncProductsFromSupabase`: upsert each remote row
by primary key. -/
def mergeRows (now : String) (rows : List RemoteProduct) (s : Store LocalProduct) :
    Store LocalProduct :=
  rows.foldl (fun st r => putAt st r.id (remoteToLocal r now)) s

/-- `syncProductsFromSupabase` of `sync.ts`: on a relation-not-found
error, return `true` without touching the store; on any other error,
return `false` without touching the store; on data, merge every row and
return `true`. -/
def syncProductsFromSupabase (res : FetchResult RemoteProduct) (now : String)
    (s : Store LocalProduct) : Bool × Store LocalProduct :=
  match res with
  | FetchResult.err e => if isRelationNotFound e then (true, s) else (false, s)
  | FetchResult.ok rows => (true, mergeRows now rows s)

/-! ## Stock classification (`Products.tsx`, `getStockStatus`) -/

structure StockStatus where
  label : String
  color : String
  bgColor : String
deriving DecidableEq, Repr

/-- `getStockStatus` of `Products.tsx`. -/
def getStockStatus (p : LocalProduct) : StockStatus :=
  if p.quantity = 0 then
    { label := "Out of Stock", color := "text-red-600", bgColor := "bg-red-100" }
  else if p.quantity ≤ p.low_stock_level then
    { label := "Low Stock", color := "text-orange-600", bgColor := "bg-orange-100" }
  else
    { label := "In Stock", color := "text-green-600", bgColor := "bg-green-100" }

/-! ## Push reconciler (`sync.ts`, `pushPendingMutations`)

The stream of `uuidv4()` results for one push cycle is modelled by the
injective stream `uuidOf`; the outcome of each Supabase data call is
decided by an oracle indexed by the call's position in the cycle; the
outcome of the preflight head check is a separate oracle value. -/

/-- The n-th freshly generated UUID of the cycle. -/
def uuidOf (n : Nat) : String := "uuid-" ++ toString n

/-- Outcome of `supabase.from('products').select('id', { head: true })`:
no error, an error value, or a thrown exception. -/
inductive HeadResult
  | ok
  | err (e : SupaError)
  | threw
deriving DecidableEq, Repr

/-- The push aborts iff the head check threw, or returned a
relation-not-found error (any other error falls through). -/
def headAborts : HeadResult → Bool
  | HeadResult.ok => false
  | HeadResult.err e => isRelationNotFound e
  | HeadResult.threw => true

/-- A Supabase data call issued by the apply pass. -/
inductive RemoteCall
  | insertRow (tbl : MTable) (payload : List (String × String))
  | updateRow (tbl : MTable) (recordId : String) (payload : List (String × String))
  | deleteRow (tbl : MTable) (recordId : String)
deriving DecidableEq, Repr

/-- Environment of one push cycle: preflight outcome, per-call success
oracle (indexed by call count so far), and the wall-clock ISO string for
`new Date().toISOString()`. -/
structure PushEnv where
  head : HeadResult
  callOk : Nat → Bool
  now : String

/-- Mutable state threaded through the apply pass: the mutation table,
the four business stores, the in-memory `idMappings`, the `uuidv4`
stream position, the calls issued so far, and the two counters. -/
structure PushState where
  queue : List MutationRecord
  products : Store LocalProduct
  sales : Store LocalSale
  notifications : Store LocalNotification
  settings : Store LocalSetting
  mappings : List (String × String)
  uuidCount : Nat
  calls : List RemoteCall
  syncedCount : Nat
  failedCount : Nat

/-- STEP 1 of `pushPendingMutations`: walk the pending mutations; for
each `products` `INSERT` whose `recordId` starts with `'local_'`,
generate a UUID and record `idMappings[recordId] = uuid`.  No store is
read or written.  The second component is the stream position after the
pre-pass. -/
def prePassAux (acc : List (String × String)) (n : Nat) :
    List MutationRecord → List (String × String) × Nat
  | [] => (acc, n)
  | m :: rest =>
    if m.table = MTable.products ∧ m.operation = MOp.INSERT ∧
        jsStartsWith m.recordId "local_" then
      prePassAux (upsertA acc m.recordId (uuidOf n)) (n + 1) rest
    else
      prePassAux acc n rest

/-- The id-mapping table as it stands when the pre-pass is done and the
first mutation is about to be transmitted. -/
def prePass (muts : List MutationRecord) : List (String × String) :=
  (prePassAux [] 0 muts).1

/-- STEP 2 of `pushPendingMutations`, payload half: a `sales` mutation
whose payload's `product_id` is a remapped old id gets the payload
rewritten to the new id (in memory; the queue rows on disk keep their
payloads). -/
def rewriteSaleRef (mp : List (String × String)) (m : MutationRecord) : MutationRecord :=
  if m.table = MTable.sales then
    match payloadGet m.payload "product_id" with
    | some pid =>
      match lookupA mp pid with
      | some newPid => { m with payload := payloadSet m.payload "product_id" newPid }
      | none => m
    | none => m
  else m

/-- STEP 2 of `pushPendingMutations`, store half: for the same sales
mutations, when `recordId` starts with `'sale_'` and the sale row exists
locally, `db.sales.update(recordId, { product_id: newProductId })`. -/
def step2SalesStore (mp : List (String × String)) (muts : List MutationRecord)
    (sales : Store LocalSale) : Store LocalSale :=
  muts.foldl
    (fun s m =>
      if m.table = MTable.sales then
        match payloadGet m.payload "product_id" with
        | some pid =>
          match lookupA mp pid with
          | some newPid =>
            if jsStartsWith m.recordId "sale_" then
              match s m.recordId with
              | some sale => putAt s m.recordId { sale with product_id := newPid }
              | none => s
            else s
          | none => s
        | none => s
      else s)
    sales

/-- STEP 3 of `pushPendingMutations`: apply one mutation.  Mirrors the
per-table, per-operation branches of `sync.ts` lines 303–594: the skip
branches for still-local record ids, the insert delete-and-reinsert under
the new UUID, the synced-flag updates, `markMutationSynced` /
`markMutationFailed` bookkeeping, and the fall-through for mutations of
the `images` table, which match no branch and are marked synced without
any call. -/
def applyMutation (env : PushEnv) (st : PushState) (m : MutationRecord) : PushState :=
  match m.table, m.operation with
  | MTable.products, MOp.INSERT =>
    let isLocalRecord := jsStartsWith m.recordId "local_"
    let finalPayload :=
      if isLocalRecord then
        payloadDel
          (payloadSet m.payload "id" ((lookupA st.mappings m.recordId).getD "undefined"))
          "synced"
      else m.payload
    let ok := env.callOk st.calls.length
    let st1 := { st with calls := st.calls ++ [RemoteCall.insertRow MTable.products finalPayload] }
    if ok then
      let st2 :=
        if isLocalRecord then
          let newId := (payloadGet finalPayload "id").getD "undefined"
          match st1.products m.recordId with
          | some p =>
            let moved := { p with id := newId, synced := true, lastSyncedAt := some env.now }
            { st1 with products := putAt (delAt st1.products m.recordId) newId moved }
          | none => st1
        else
          let markP := fun (p : LocalProduct) =>
            { p with synced := true, lastSyncedAt := some env.now }
          { st1 with products := updAt st1.products m.recordId markP }
      { st2 with queue := markSyncedQ st2.queue m.id, syncedCount := st2.syncedCount + 1 }
    else
      { st1 with queue := markMutationFailed st1.queue m.id "error",
                 failedCount := st1.failedCount + 1 }
  | MTable.products, MOp.UPDATE =>
    if jsStartsWith m.recordId "local_" then
      { st with queue := markSyncedQ st.queue m.id, syncedCount := st.syncedCount + 1 }
    else
      let recordId := (lookupA st.mappings m.recordId).getD m.recordId
      let ok := env.callOk st.calls.length
      let st1 :=
        { st with calls := st.calls ++ [RemoteCall.updateRow MTable.products recordId m.payload] }
      if ok then
        let markP := fun (p : LocalProduct) =>
          { p with synced := true, lastSyncedAt := some env.now }
        let st2 := { st1 with products := updAt st1.products recordId markP }
        { st2 with queue := markSyncedQ st2.queue m.id, syncedCount := st2.syncedCount + 1 }
      else
        { st1 with queue := markMutationFailed st1.queue m.id "error",
                   failedCount := st1.failedCount + 1 }
  | MTable.products, MOp.DELETE =>
    if jsStartsWith m.recordId "local_" then
      { st with queue := markSyncedQ st.queue m.id, syncedCount := st.syncedCount + 1 }
    else
      let recordId := (lookupA st.mappings m.recordId).getD m.recordId
      let ok := env.callOk st.calls.length
      let st1 := { st with calls := st.calls ++ [RemoteCall.deleteRow MTable.products recordId] }
      if ok then
        { st1 with queue := markSyncedQ st1.queue m.id, syncedCount := st1.syncedCount + 1 }
      else
        { st1 with queue := markMutationFailed st1.queue m.id "error",
                   failedCount := st1.failedCount + 1 }
  | MTable.sales, MOp.INSERT =>
    let isLocalRecord := jsStartsWith m.recordId "sale_"
    let withUUID :=
      if isLocalRecord then
        let remoteUUID := uuidOf st.uuidCount
        (payloadDel (payloadSet m.payload "id" remoteUUID) "synced",
         { st with uuidCount := st.uuidCount + 1,
                   mappings := upsertA st.mappings m.recordId remoteUUID })
      else (m.payload, st)
    let finalPayload := withUUID.1
    let st0 := withUUID.2
    let ok := env.callOk st0.calls.length
    let st1 := { st0 with calls := st0.calls ++ [RemoteCall.insertRow MTable.sales finalPayload] }
    if ok then
      let st2 :=
        if isLocalRecord then
          let newId := (payloadGet finalPayload "id").getD "undefined"
          match st1.sales m.recordId with
          | some sale =>
            let moved := { sale with id := newId, synced := true, lastSyncedAt := some env.now }
            { st1 with sales := putAt (delAt st1.sales m.recordId) newId moved }
          | none => st1
        else
          let markS := fun (x : LocalSale) =>
            { x with synced := true, lastSyncedAt := some env.now }
          { st1 with sales := updAt st1.sales m.recordId markS }
      { st2 with queue := markSyncedQ st2.queue m.id, syncedCount := st2.syncedCount + 1 }
    else
      { st1 with queue := markMutationFailed st1.queue m.id "error",
                 failedCount := st1.failedCount + 1 }
  | MTable.sales, MOp.UPDATE =>
    if jsStartsWith m.recordId "sale_" then
      { st with queue := markSyncedQ st.queue m.id, syncedCount := st.syncedCount + 1 }
    else
      let recordId := (lookupA st.mappings m.recordId).getD m.recordId
      let ok := env.callOk st.calls.length
      let st1 :=
        { st with calls := st.calls ++ [RemoteCall.updateRow MTable.sales recordId m.payload] }
      if ok then
        let markS := fun (x : LocalSale) =>
          { x with synced := true, lastSyncedAt := some env.now }
        let st2 := { st1 with sales := updAt st1.sales recordId markS }
        { st2 with queue := markSyncedQ st2.queue m.id, syncedCount := st2.syncedCount + 1 }
      else
        { st1 with queue := markMutationFailed st1.queue m.id "error",
                   failedCount := st1.failedCount + 1 }
  | MTable.sales, MOp.DELETE =>
    if jsStartsWith m.recordId "sale_" then
      { st with queue := markSyncedQ st.queue m.id, syncedCount := st.syncedCount + 1 }
    else
      let recordId := (lookupA st.mappings m.recordId).getD m.recordId
      let ok := env.callOk st.calls.length
      let st1 := { st with calls := st.calls ++ [RemoteCall.deleteRow MTable.sales recordId] }
      if ok then
        { st1 with queue := markSyncedQ st1.queue m.id, syncedCount := st1.syncedCount + 1 }
      else
        { st1 with queue := markMutationFailed st1.queue m.id "error",
                   failedCount := st1.failedCount + 1 }
  | MTable.notifications, MOp.INSERT =>
    let isLocalRecord := jsStartsWith m.recordId "notif_"
    let withUUID :=
      if isLocalRecord then
        let remoteUUID := uuidOf st.uuidCount
        (payloadDel (payloadSet m.payload "id" remoteUUID) "synced",
         { st with uuidCount := st.uuidCount + 1,
                   mappings := upsertA st.mappings m.recordId remoteUUID })
      else (m.payload, st)
    let finalPayload := withUUID.1
    let st0 := withUUID.2
    let ok := env.callOk st0.calls.length
    let st1 :=
      { st0 with calls := st0.calls ++ [RemoteCall.insertRow MTable.notifications finalPayload] }
    if ok then
      let st2 :=
        if isLocalRecord then
          let newId := (payloadGet finalPayload "id").getD "undefined"
          match st1.notifications m.recordId with
          | some n =>
            let moved := { n with id := newId, synced := true }
            { st1 with notifications := putAt (delAt st1.notifications m.recordId) newId moved }
          | none => st1
        else st1
      { st2 with queue := markSyncedQ st2.queue m.id, syncedCount := st2.syncedCount + 1 }
    else
      { st1 with queue := markMutationFailed st1.queue m.id "error",
                 failedCount := st1.failedCount + 1 }
  | MTable.notifications, MOp.UPDATE =>
    if jsStartsWith m.recordId "notif_" then
      { st with queue := markSyncedQ st.queue m.id, syncedCount := st.syncedCount + 1 }
    else
      let recordId := (lookupA st.mappings m.recordId).getD m.recordId
      let ok := env.callOk st.calls.length
      let newCalls := st.calls ++ [RemoteCall.updateRow MTable.notifications recordId m.payload]
      let st1 := { st with calls := newCalls }
      if ok then
        { st1 with queue := markSyncedQ st1.queue m.id, syncedCount := st1.syncedCount + 1 }
      else
        { st1 with queue := markMutationFailed st1.queue m.id "error",
                   failedCount := st1.failedCount + 1 }
  | MTable.notifications, MOp.DELETE =>
    if jsStartsWith m.recordId "notif_" then
      { st with queue := markSyncedQ st.queue m.id, syncedCount := st.syncedCount + 1 }
    else
      let recordId := (lookupA st.mappings m.recordId).getD m.recordId
      let ok := env.callOk st.calls.length
      let st1 :=
        { st with calls := st.calls ++ [RemoteCall.deleteRow MTable.notifications recordId] }
      if ok then
        { st1 with queue := markSyncedQ st1.queue m.id, syncedCount := st1.syncedCount + 1 }
      else
        { st1 with queue := markMutationFailed st1.queue m.id "error",
                   failedCount := st1.failedCount + 1 }
  | MTable.settings, MOp.INSERT =>
    let isLocalRecord := jsStartsWith m.recordId "setting_"
    let withUUID :=
      if isLocalRecord then
        let remoteUUID := uuidOf st.uuidCount
        (payloadDel (payloadSet m.payload "id" remoteUUID) "synced",
         { st with uuidCount := st.uuidCount + 1,
                   mappings := upsertA st.mappings m.recordId remoteUUID })
      else (m.payload, st)
    let finalPayload := withUUID.1
    let st0 := withUUID.2
    let ok := env.callOk st0.calls.length
    let st1 :=
      { st0 with calls := st0.calls ++ [RemoteCall.insertRow MTable.settings finalPayload] }
    if ok then
      let st2 :=
        if isLocalRecord then
          let newId := (payloadGet finalPayload "id").getD "undefined"
          match st1.settings m.recordId with
          | some sg =>
            let moved := { sg with id := newId, synced := true }
            { st1 with settings := putAt (delAt st1.settings m.recordId) newId moved }
          | none => st1
        else st1
      { st2 with queue := markSyncedQ st2.queue m.id, syncedCount := st2.syncedCount + 1 }
    else
      { st1 with queue := markMutationFailed st1.queue m.id "error",
                 failedCount := st1.failedCount + 1 }
  | MTable.settings, MOp.UPDATE =>
    if jsStartsWith m.recordId "setting_" then
      { st with queue := markSyncedQ st.queue m.id, syncedCount := st.syncedCount + 1 }
    else
      let recordId := (lookupA st.mappings m.recordId).getD m.recordId
      let ok := env.callOk st.calls.length
      let st1 :=
        { st with calls := st.calls ++ [RemoteCall.updateRow MTable.settings recordId m.payload] }
      if ok then
        { st1 with queue := markSyncedQ st1.queue m.id, syncedCount := st1.syncedCount + 1 }
      else
        { st1 with queue := markMutationFailed st1.queue m.id "error",
                   failedCount := st1.failedCount + 1 }
  | MTable.settings, MOp.DELETE =>
    if jsStartsWith m.recordId "setting_" then
      { st with queue := markSyncedQ st.queue m.id, syncedCount := st.syncedCount + 1 }
    else
      let recordId := (lookupA st.mappings m.recordId).getD m.recordId
      let ok := env.callOk st.calls.length
      let st1 := { st with calls := st.calls ++ [RemoteCall.deleteRow MTable.settings recordId] }
      if ok then
        { st1 with queue := markSyncedQ st1.queue m.id, syncedCount := st1.syncedCount + 1 }
      else
        { st1 with queue := markMutationFailed st1.queue m.id "error",
                   failedCount := st1.failedCount + 1 }
  | MTable.images, _ =>
    { st with queue := markSyncedQ st.queue m.id, syncedCount := st.syncedCount + 1 }

/-- Result of `pushPendingMutations`. -/
structure PushResult where
  success : Bool
  idMappings : List (String × String)
deriving Repr

/-- Whole local database state threaded through a sync cycle. -/
structure SyncState where
  products : Store LocalProduct
  sales : Store LocalSale
  notifications : Store LocalNotification
  settings : Store LocalSetting
  mutations : List MutationRecord

/-- `pushPendingMutations` of `sync.ts`: fetch the pending mutations; on
an empty queue return success at once; run the preflight head check and
abort (success `false`, empty mapping, nothing touched) when the remote
schema is missing or the check threw; otherwise run the pre-pass, the
sales payload rewrite, the apply pass over every pending mutation, clear
the synced queue rows, and report `failedCount === 0` plus the cycle's
id mapping. -/
def pushPendingMutations (env : PushEnv) (st : SyncState) : PushResult × SyncState :=
  let muts := getPendingMutations st.mutations
  if muts.isEmpty then
    ({ success := true, idMappings := [] }, st)
  else if headAborts env.head then
    ({ success := false, idMappings := [] }, st)
  else
    let pre := prePassAux [] 0 muts
    let muts2 := muts.map (rewriteSaleRef pre.1)
    let sales2 := step2SalesStore pre.1 muts st.sales
    let ps0 : PushState :=
      { queue := st.mutations
        products := st.products
        sales := sales2
        notifications := st.notifications
        settings := st.settings
        mappings := pre.1
        uuidCount := pre.2
        calls := []
        syncedCount := 0
        failedCount := 0 }
    let psF := muts2.foldl (applyMutation env) ps0
    ({ success := psF.failedCount == 0, idMappings := psF.mappings },
     { products := psF.products
       sales := psF.sales
       notifications := psF.notifications
       settings := psF.settings
       mutations := clearSyncedMutations psF.queue })

/-! ## Sync orchestrator (`sync.ts`, `performFullSync`)

`performFullSync` guards on the module-level debounce timestamp and
in-progress flag before doing anything; when both guards pass it marks
the sync in progress, stamps the attempt time, runs the pull+push body,
and clears the flag in a `finally`.  The body (pull, push, image sync,
remap fixup, metadata stamp) is abstracted as a function on the rest of
the world so that the guards' "no side effects" is provable for every
body. -/

def SYNC_DEBOUNCE_MS : Nat := 1000

/-- The module-level sync globals of `sync.ts`. -/
structure SyncFlags where
  syncInProgress : Bool
  lastSyncAttempt : Nat
deriving DecidableEq, Repr

/-- `performFullSync`: debounce check, in-progress check, then the body
under the in-progress flag, which a `finally` always clears. -/
def performFullSync {α : Type} (body : α → Bool × α) (fl : SyncFlags) (w : α)
    (now : Nat) : Bool × SyncFlags × α :=
  if now - fl.lastSyncAttempt < SYNC_DEBOUNCE_MS then
    (false, fl, w)
  else if fl.syncInProgress then
    (false, fl, w)
  else
    let r := body w
    (r.1, { syncInProgress := false, lastSyncAttempt := now }, r.2)

/-! ## Spec-side vocabulary

The specification speaks of "local-origin placeholder prefixes" per
collection; in the source they appear as the inline `startsWith` checks
of `sync.ts` (`local_`, `sale_`, `notif_`, `setting_`; mutations of the
`images` table match no push branch and have no placeholder marker). -/

def localMarker : MTable → Option String
  | MTable.products => some "local_"
  | MTable.sales => some "sale_"
  | MTable.notifications => some "notif_"
  | MTable.settings => some "setting_"
  | MTable.images => none

def isPlaceholderId (t : MTable) (rid : String) : Bool :=
  match localMarker t with
  | some mk => jsStartsWith rid mk
  | none => false

/-- A pending `products` `INSERT` against a placeholder id — the
condition of the remap pre-pass. -/
def isLocalProductInsert (m : MutationRecord) : Prop :=
  m.table = MTable.products ∧ m.operation = MOp.INSERT ∧
    jsStartsWith m.recordId "local_" = true

/-- Erase the per-merge sync stamp, for comparing pull results up to
`lastSyncedAt`. -/
def normP (p : LocalProduct) : LocalProduct :=
  { p with lastSyncedAt := none }

/-! ## Concrete exhibits used by counterexamples and witnesses -/

/-- An offline product insert: queued first (`timestamp` 1) but with the
lexicographically larger mutation UUID. -/
def mProdIns : MutationRecord :=
  { id := "b7f0", clientId := "c1", table := MTable.products, operation := MOp.INSERT,
    recordId := "local_1", payload := [("id", "local_1"), ("name", "Hair Cream")],
    timestamp := 1, status := MStatus.pending, retries := 0, lastError := none }

/-- A later update to the same record (`timestamp` 2) with the
lexicographically smaller mutation UUID. -/
def mProdUpd : MutationRecord :=
  { id := "a1c9", clientId := "c1", table := MTable.products, operation := MOp.UPDATE,
    recordId := "local_1", payload := [("name", "Hair Gel")],
    timestamp := 2, status := MStatus.pending, retries := 0, lastError := none }

/-- A pending offline sale insert whose record id carries the sales
placeholder marker. -/
def mSaleIns : MutationRecord :=
  { id := "d2e8", clientId := "c1", table := MTable.sales, operation := MOp.INSERT,
    recordId := "sale_1", payload := [("id", "sale_1"), ("product_id", "local_1")],
    timestamp := 3, status := MStatus.pending, retries := 0, lastError := none }

/-- A pending sale update against a still-unresolved placeholder id. -/
def mSaleUpdLocal : MutationRecord :=
  { id := "u1", clientId := "c1", table := MTable.sales, operation := MOp.UPDATE,
    recordId := "sale_9", payload := [("quantity_sold", "2")],
    timestamp := 4, status := MStatus.pending, retries := 0, lastError := none }

/-- A pending mutation that has already failed four times. -/
def mFail4 : MutationRecord :=
  { id := "f4", clientId := "c1", table := MTable.products, operation := MOp.UPDATE,
    recordId := "p9", payload := [("name", "X")],
    timestamp := 5, status := MStatus.pending, retries := 4, lastError := some "e4" }

/-- A failed mutation awaiting manual retry, next to an unrelated one. -/
def mFailedEx : MutationRecord :=
  { id := "f1", clientId := "c1", table := MTable.sales, operation := MOp.INSERT,
    recordId := "sale_2", payload := [], timestamp := 6, status := MStatus.failed,
    retries := 5, lastError := some "boom" }

def mOtherEx : MutationRecord :=
  { id := "g2", clientId := "c1", table := MTable.products, operation := MOp.DELETE,
    recordId := "p1", payload := [], timestamp := 7, status := MStatus.pending,
    retries := 1, lastError := some "once" }

/-- A preflight answer reporting the relation-not-found condition. -/
def errRelNotFound : SupaError := { code := "PGRST205", message := "" }

/-- A push environment whose preflight head check reports
relation-not-found. -/
def envAbort : PushEnv :=
  { head := HeadResult.err errRelNotFound, callOk := fun _ => true, now := "T" }

/-- A sync-state with one pending mutation and empty stores. -/
def stExample : SyncState :=
  { products := emptyStore, sales := emptyStore, notifications := emptyStore,
    settings := emptyStore, mutations := [mProdIns] }

/-- An apply-pass state holding one pending sale update. -/
def psExample : PushState :=
  { queue := [mSaleUpdLocal], products := emptyStore, sales := emptyStore,
    notifications := emptyStore, settings := emptyStore, mappings := [],
    uuidCount := 0, calls := [], syncedCount := 0, failedCount := 0 }

/-- A remote product row. -/
def exRemoteP : RemoteProduct :=
  { id := "p1", name := "Hair Cream", category := "hair", buying_price := 200,
    selling_price := 500, quantity := 10, low_stock_level := 7, image_url := none,
    created_at := "2024-01-01", updated_at := "2024-01-02" }

/-- The local products store after pulling `[exRemoteP]` at time `T1`. -/
def pullOnce : Store LocalProduct :=
  (syncProductsFromSupabase (FetchResult.ok [exRemoteP]) "T1" emptyStore).2

/-- The same store after pulling the unchanged remote again at `T2`. -/
def pullTwice : Store LocalProduct :=
  (syncProductsFromSupabase (FetchResult.ok [exRemoteP]) "T2" pullOnce).2

/-- Products with quantity 7, 8 and 0 against a low-stock threshold 7. -/
def pQ7 : LocalProduct :=
  { id := "q7", name := "n", category := "c", buying_price := 200, selling_price := 500,
    quantity := 7, low_stock_level := 7, image_url := none, image_id := none,
    created_at := "", updated_at := "", synced := false, lastSyncedAt := none }

def pQ8 : LocalProduct := { pQ7 with id := "q8", quantity := 8 }

def pQ0 : LocalProduct := { pQ7 with id := "q0", quantity := 0 }

/-- A sync body for exercising `performFullSync`: reports success and
counts how often it ran. -/
def syncBodyW : Nat → Bool × Nat := fun n => (true, n + 1)

/-! ## Helper lemmas -/

/-- The STEP-2 payload rewrite never changes a mutation's id. -/
theorem rewriteSaleRef_id (mp : List (String × String)) (m : MutationRecord) :
    (rewriteSaleRef mp m).id = m.id := by
  unfold rewriteSaleRef
  split
  · split
    · split
      · rfl
      · rfl
    · rfl
  · rfl

/-- With unique primary keys, `db.mutations.get` finds exactly the member
with that id. -/
theorem findById_eq_of_nodup {q : List MutationRecord} {m : MutationRecord}
    (hnd : (q.map MutationRecord.id).Nodup) (hm : m ∈ q) :
    findById q m.id = some m := by
  induction q with
  | nil => cases hm
  | cons a q ih =>
    rcases List.mem_cons.mp hm with rfl | hm'
    · simp [findById]
    · have hne : ¬ (a.id == m.id) = true := by
        intro hbe
        have : a.id = m.id := by simpa using hbe
        exact (List.nodup_cons.mp (by simpa using hnd)).1
          (this ▸ List.mem_map_of_mem MutationRecord.id hm')
      have := ih (List.nodup_cons.mp (by simpa using hnd)).2 hm'
      simpa [findById, List.find?, hne] using this

/-- `db.mutations.get` through a per-record rewrite that keeps ids. -/
theorem findById_map (q : List MutationRecord) (f : MutationRecord → MutationRecord)
    (hf : ∀ x, (f x).id = x.id) (mid : String) :
    findById (q.map f) mid = (findById q mid).map f := by
  induction q with
  | nil => rfl
  | cons a q ih =>
    by_cases h : (a.id == mid) = true
    · simp [findById, List.find?, hf, h]
    · simpa [findById, List.find?, hf, h] using ih

theorem lookupA_removeKey (l : List (String × String)) (k x : String) (h : x ≠ k) :
    lookupA (removeKey l k) x = lookupA l x := by
  induction l with
  | nil => rfl
  | cons a l ih =>
    obtain ⟨k1, v1⟩ := a
    by_cases hk : k1 = k
    · subst hk
      simp [removeKey, lookupA, h, ih]
    · by_cases hx1 : x = k1
      · simp [removeKey, hk, lookupA, hx1]
      · simp [removeKey, hk, lookupA, hx1, ih]

theorem lookupA_upsertA (l : List (String × String)) (k v x : String) :
    lookupA (upsertA l k v) x = if x = k then some v else lookupA l x := by
  unfold upsertA
  by_cases h : x = k
  · simp [lookupA, h]
  · simp [lookupA, h, lookupA_removeKey l k x h]

/-- A binding once present in `idMappings` survives the rest of the
pre-pass (later assignments can only overwrite its value). -/
theorem prePassAux_preserve (muts : List MutationRecord) :
    ∀ (acc : List (String × String)) (n : Nat) (r : String),
      lookupA acc r ≠ none → lookupA (prePassAux acc n muts).1 r ≠ none := by
  induction muts with
  | nil => intro acc n r h; exact h
  | cons m rest ih =>
    intro acc n r h
    unfold prePassAux
    split
    · apply ih
      rw [lookupA_upsertA]
      split
      · simp
      · exact h
    · exact ih acc n r h

/-- Every binding the pre-pass produces comes from a pending local
product insert (or was already in the accumulator). -/
theorem prePassAux_lookup_src (muts : List MutationRecord) :
    ∀ (acc : List (String × String)) (n : Nat) (r : String),
      lookupA (prePassAux acc n muts).1 r ≠ none →
      (∃ m, m ∈ muts ∧ isLocalProductInsert m ∧ m.recordId = r) ∨ lookupA acc r ≠ none := by
  induction muts with
  | nil => intro acc n r h; exact Or.inr h
  | cons m rest ih =>
    intro acc n r h
    unfold prePassAux at h
    split at h
    · rename_i hcond
      rcases ih _ _ _ h with ⟨m2, hm2, hc, hr⟩ | hacc
      · exact Or.inl ⟨m2, List.mem_cons_of_mem m hm2, hc, hr⟩
      · rw [lookupA_upsertA] at hacc
        by_cases hr : r = m.recordId
        · exact Or.inl ⟨m, List.mem_cons_self m rest,
            ⟨hcond.1, hcond.2.1, hcond.2.2⟩, hr.symm⟩
        · rw [if_neg hr] at hacc
          exact Or.inr hacc
    · rcases ih _ _ _ h with ⟨m2, hm2, hc, hr⟩ | hacc
      · exact Or.inl ⟨m2, List.mem_cons_of_mem m hm2, hc, hr⟩
      · exact Or.inr hacc

/-- Conversely, the pre-pass maps the record id of every pending local
product insert. -/
theorem prePassAux_lookup_of_src (muts : List MutationRecord) :
    ∀ (acc : List (String × String)) (n : Nat) (r : String),
      (∃ m, m ∈ muts ∧ isLocalProductInsert m ∧ m.recordId = r) →
      lookupA (prePassAux acc n muts).1 r ≠ none := by
  induction muts with
  | nil =>
    rintro acc n r ⟨m, hm, _⟩
    cases hm
  | cons m rest ih =>
    rintro acc n r ⟨m2, hm2, hc, hr⟩
    unfold prePassAux
    rcases List.mem_cons.mp hm2 with rfl | hmem
    · rw [if_pos ⟨hc.1, hc.2.1, hc.2.2⟩]
      apply prePassAux_preserve
      rw [lookupA_upsertA, if_pos hr.symm]
      simp
    · split
      · exact ih _ _ _ ⟨m2, hmem, hc, hr⟩
      · exact ih _ _ _ ⟨m2, hmem, hc, hr⟩

/-- Every value the pre-pass binds is a freshly generated UUID of the
cycle's stream. -/
theorem prePassAux_lookup_val (muts : List MutationRecord) :
    ∀ (acc : List (String × String)) (n : Nat) (r v : String),
      lookupA (prePassAux acc n muts).1 r = some v →
      (∃ k, v = uuidOf k) ∨ lookupA acc r = some v := by
  induction muts with
  | nil => intro acc n r v h; exact Or.inr h
  | cons m rest ih =>
    intro acc n r v h
    unfold prePassAux at h
    split at h
    · rcases ih _ _ _ _ h with hk | hacc
      · exact Or.inl hk
      · rw [lookupA_upsertA] at hacc
        by_cases hr : r = m.recordId
        · rw [if_pos hr] at hacc
          exact Or.inl ⟨n, (Option.some_inj.mp hacc).symm⟩
        · rw [if_neg hr] at hacc
          exact Or.inr hacc
    · rcases ih _ _ _ _ h with hk | hacc
      · exact Or.inl hk
      · exact Or.inr hacc

/-- A key no remote row carries is untouched by the merge loop. -/
theorem mergeRows_notmem (t : String) (rows : List RemoteProduct) :
    ∀ (s : Store LocalProduct) (i : String),
      i ∉ rows.map RemoteProduct.id → mergeRows t rows s i = s i := by
  induction rows with
  | nil => intro s i _; rfl
  | cons r rest ih =>
    intro s i hi
    have hir : ¬ i = r.id := fun he => hi (by simp [he])
    have hirest : i ∉ rest.map RemoteProduct.id := fun hmem => hi (by simp [hmem])
    show mergeRows t rest (putAt s r.id (remoteToLocal r t)) i = s i
    rw [ih _ _ hirest]
    simp [putAt, hir]

/-- The merge loop preserves pointwise agreement up to the sync stamp. -/
theorem mergeRows_congr (t : String) (rows : List RemoteProduct) :
    ∀ (a b : Store LocalProduct),
      (∀ i, (a i).map normP = (b i).map normP) →
      ∀ i, (mergeRows t rows a i).map normP = (mergeRows t rows b i).map normP := by
  induction rows with
  | nil => intro a b h i; exact h i
  | cons r rest ih =>
    intro a b h i
    show (mergeRows t rest (putAt a r.id (remoteToLocal r t)) i).map normP
        = (mergeRows t rest (putAt b r.id (remoteToLocal r t)) i).map normP
    apply ih
    intro j
    unfold putAt
    by_cases hj : j = r.id
    · simp [hj]
    · simp [hj, h j]

/-- Reading a store at the key a `putAt` wrote. -/
theorem putAt_pos {α : Type} (s : Store α) (k : String) (v : α) : putAt s k v k = some v := by
  simp [putAt]

/-- Reading a store at a key a `putAt` did not write. -/
theorem putAt_neg {α : Type} (s : Store α) (k : String) (v : α) (x : String) (h : x ≠ k) :
    putAt s k v x = s x := by
  simp [putAt, h]

/-- Merging the same remote rows twice gives, record for record, the
same store up to the `lastSyncedAt` stamp. -/
theorem mergeRows_idem (rows : List RemoteProduct) :
    ∀ (t1 t2 : String) (s0 : Store LocalProduct),
      (rows.map RemoteProduct.id).Nodup →
      ∀ i, ((mergeRows t2 rows (mergeRows t1 rows s0)) i).map normP
          = ((mergeRows t1 rows s0) i).map normP := by
  induction rows with
  | nil => intro t1 t2 s0 _ i; rfl
  | cons r rest ih =>
    intro t1 t2 s0 hnd i
    rw [List.map_cons] at hnd
    have hnotin : r.id ∉ rest.map RemoteProduct.id := (List.nodup_cons.mp hnd).1
    have hnd2 : (rest.map RemoteProduct.id).Nodup := (List.nodup_cons.mp hnd).2
    have hput : ∀ j,
        ((putAt (mergeRows t1 rest (putAt s0 r.id (remoteToLocal r t1))) r.id
            (remoteToLocal r t2)) j).map normP
          = ((mergeRows t1 rest (putAt s0 r.id (remoteToLocal r t1))) j).map normP := by
      intro j
      by_cases hj : j = r.id
      · subst hj
        rw [putAt_pos,
          mergeRows_notmem t1 rest (putAt s0 r.id (remoteToLocal r t1)) r.id hnotin,
          putAt_pos]
        simp [normP, remoteToLocal]
      · rw [putAt_neg _ _ _ _ hj]
    have h1 := mergeRows_congr t2 rest _ _ hput i
    have h2 := ih t1 t2 (putAt s0 r.id (remoteToLocal r t1)) hnd2 i
    show ((mergeRows t2 rest
        (putAt (mergeRows t1 rest (putAt s0 r.id (remoteToLocal r t1))) r.id
          (remoteToLocal r t2))) i).map normP
      = ((mergeRows t1 rest (putAt s0 r.id (remoteToLocal r t1))) i).map normP
    exact h1.trans h2

/-! ## Claim theorems -/

/-- Claim C1, counterexample: `getPendingMutations` does not return the
pending mutations in ascending creation-timestamp order.  With the
insert `mProdIns` (timestamp 1, mutation id `b7f0`) queued before the
update `mProdUpd` (timestamp 2, mutation id `a1c9`) against the same
record, the `status`-index iteration order puts the update first, so the
returned timestamps are `[2, 1]` and the apply pass would push the
insert after the later update. -/
theorem C1_counterexample :
    (getPendingMutations [mProdIns, mProdUpd]).map (fun m => m.timestamp) = [2, 1] ∧
    ¬ (getPendingMutations [mProdIns, mProdUpd]).Pairwise
        (fun a b => a.timestamp ≤ b.timestamp) ∧
    mProdIns.timestamp < mProdUpd.timestamp ∧
    mProdIns.recordId = mProdUpd.recordId := by
  decide

/-- Claim C1, amended: `getPendingMutations` returns exactly the
mutations whose status is `pending`, sorted in ascending mutation-id
(primary-key) order — not creation-timestamp order — and the push apply
pass processes the mutations in exactly that returned order (the STEP-2
payload rewrite it traverses first preserves each mutation's identity
and position). -/
theorem C1_amended_order (q : List MutationRecord) (mp : List (String × String)) :
    (getPendingMutations q).Sorted idLe ∧
    (getPendingMutations q).Perm (q.filter (fun m => m.status == MStatus.pending)) ∧
    ((getPendingMutations q).map (rewriteSaleRef mp)).map MutationRecord.id
      = (getPendingMutations q).map MutationRecord.id := by
  refine ⟨List.sorted_insertionSort idLe _, List.perm_insertionSort idLe _, ?_⟩
  rw [List.map_map]
  exact List.map_congr_left (fun x _ => rewriteSaleRef_id mp x)

/-- Claim C2, counterexample: the remap pre-pass does not cover every
collection's placeholder inserts.  The pending sale insert `mSaleIns`
targets `sale_1`, which carries the sales placeholder marker, yet after
the pre-pass the id-mapping table has no entry for it (sales get their
UUID only at apply time). -/
theorem C2_counterexample :
    mSaleIns ∈ getPendingMutations [mSaleIns] ∧
    mSaleIns.operation = MOp.INSERT ∧
    isPlaceholderId mSaleIns.table mSaleIns.recordId = true ∧
    lookupA (prePass (getPendingMutations [mSaleIns])) mSaleIns.recordId = none := by
  decide

/-- Claim C2, amended: before any mutation is transmitted, the in-memory
id-mapping table built by the pre-pass contains an entry exactly for the
pending `products` INSERT mutations whose record id starts with
`local_`, and every entry's value is a freshly generated UUID of the
cycle; inserts for the other collections are mapped only at apply time.
The pre-pass itself reads and writes no store (it is a pure function of
the pending-mutations list). -/
theorem C2_amended_premap (muts : List MutationRecord) (r : String) :
    (lookupA (prePass muts) r ≠ none ↔
      ∃ m, m ∈ muts ∧ m.table = MTable.products ∧ m.operation = MOp.INSERT ∧
        m.recordId = r ∧ jsStartsWith m.recordId "local_" = true) ∧
    (∀ v, lookupA (prePass muts) r = some v → ∃ k, v = uuidOf k) := by
  constructor
  · constructor
    · intro h
      rcases prePassAux_lookup_src muts [] 0 r h with ⟨m, hm, hc, hr⟩ | hacc
      · exact ⟨m, hm, hc.1, hc.2.1, hr, hc.2.2⟩
      · exact absurd rfl hacc
    · rintro ⟨m, hm, ht, ho, hr, hs⟩
      exact prePassAux_lookup_of_src muts [] 0 r ⟨m, hm, ⟨ht, ho, hs⟩, hr⟩
  · intro v h
    rcases prePassAux_lookup_val muts [] 0 r v h with hk | hacc
    · exact hk
    · cases hacc

/-- Claim C2, amended, witness: on the queue `[mProdIns]` the pre-pass
binds `local_1`, and the bound value is the cycle's first UUID. -/
theorem C2_amended_premap_witness :
    lookupA (prePass [mProdIns]) "local_1" ≠ none ∧
    (∃ k, uuidOf 0 = uuidOf k) := by
  constructor
  · exact (C2_amended_premap [mProdIns] "local_1").1.mpr
      ⟨mProdIns, by decide, rfl, rfl, rfl, by decide⟩
  · exact (C2_amended_premap [mProdIns] "local_1").2 (uuidOf 0) (by decide)

/-- Claim C3: a pending UPDATE or DELETE whose record id still carries
its collection's local-origin placeholder marker is applied without any
remote call: the apply step only marks the mutation synced (and bumps
the synced counter); queue apart, the state — stores, mapping table,
call log, failure count — is untouched. -/
theorem C3_placeholder_skip (env : PushEnv) (st : PushState) (m : MutationRecord)
    (hop : m.operation = MOp.UPDATE ∨ m.operation = MOp.DELETE)
    (hph : isPlaceholderId m.table m.recordId = true) :
    applyMutation env st m =
      { st with queue := markSyncedQ st.queue m.id,
                syncedCount := st.syncedCount + 1 } := by
  obtain ⟨mid, cid, tab, op, rid, pl, ts, stt, rt, ler⟩ := m
  rcases hop with hop | hop <;> cases hop <;> cases tab <;>
    simp only [isPlaceholderId, localMarker] at hph <;>
    simp [applyMutation, hph]

/-- Claim C3, witness: the pending sale update `mSaleUpdLocal` against
`sale_9` is skipped and marked synced. -/
theorem C3_placeholder_skip_witness :
    (mSaleUpdLocal.operation = MOp.UPDATE ∨ mSaleUpdLocal.operation = MOp.DELETE) ∧
    isPlaceholderId mSaleUpdLocal.table mSaleUpdLocal.recordId = true ∧
    applyMutation envAbort psExample mSaleUpdLocal =
      { psExample with queue := markSyncedQ psExample.queue mSaleUpdLocal.id,
                       syncedCount := psExample.syncedCount + 1 } :=
  ⟨Or.inl rfl, by decide,
   C3_placeholder_skip envAbort psExample mSaleUpdLocal (Or.inl rfl) (by decide)⟩

/-- Claim C4: `markMutationFailed` increments the retry count by one and
keeps the status `pending` while the new count is below 5; at 5 the
status becomes `failed`; and `getPendingMutations` returns only
`pending` mutations, so a `failed` mutation is excluded from automatic
push passes until it is reset. -/
theorem C4_retry_ceiling (q : List MutationRecord) (m : MutationRecord) (err : String)
    (hnd : (q.map MutationRecord.id).Nodup) (hm : m ∈ q) :
    findById (markMutationFailed q m.id err) m.id =
      some { m with
        status := if 5 ≤ m.retries + 1 then MStatus.failed else MStatus.pending,
        retries := m.retries + 1,
        lastError := some err } ∧
    (∀ (q2 : List MutationRecord) (x : MutationRecord),
        x ∈ getPendingMutations q2 → x.status = MStatus.pending) := by
  constructor
  · have hfind := findById_eq_of_nodup hnd hm
    unfold markMutationFailed
    rw [hfind]
    have hpres : ∀ (x : MutationRecord),
        ((fun x => if x.id = m.id then
            { x with
              status := if 5 ≤ m.retries + 1 then MStatus.failed else MStatus.pending,
              retries := m.retries + 1,
              lastError := some err }
          else x) x).id = x.id := by
      intro x
      by_cases hx : x.id = m.id
      · simp [hx]
      · simp [hx]
    rw [findById_map q _ hpres m.id, hfind]
    simp
  · intro q2 x hx
    have hx2 : x ∈ q2.filter (fun m2 => m2.status == MStatus.pending) := by
      simpa [getPendingMutations] using hx
    have := (List.mem_filter.mp hx2).2
    simpa using this

/-- Claim C4, witness: a fifth failure of `mFail4` (four prior retries)
turns its status to `failed` with retry count 5; the exclusion half is
instantiated trivially by the theorem itself. -/
theorem C4_retry_ceiling_witness :
    ([mFail4].map MutationRecord.id).Nodup ∧ mFail4 ∈ [mFail4] ∧
    findById (markMutationFailed [mFail4] mFail4.id "boom") mFail4.id =
      some { mFail4 with status := MStatus.failed, retries := 5,
                         lastError := some "boom" } := by
  refine ⟨by decide, by decide, ?_⟩
  exact (C4_retry_ceiling [mFail4] mFail4 "boom" (by decide) (by decide)).1

/-- Claim C5: with a non-empty pending queue, when the preflight head
check against the remote products collection reports relation-not-found
or throws, `pushPendingMutations` returns `success := false` with an
empty id mapping and the whole sync state — every queued mutation's
status, retry count and payload, and every store — exactly as it was. -/
theorem C5_preflight_abort (env : PushEnv) (st : SyncState)
    (hne : getPendingMutations st.mutations ≠ [])
    (habort : headAborts env.head = true) :
    pushPendingMutations env st = ({ success := false, idMappings := [] }, st) := by
  unfold pushPendingMutations
  have h1 : (getPendingMutations st.mutations).isEmpty = false := by
    cases hq : getPendingMutations st.mutations with
    | nil => exact absurd hq hne
    | cons a l => rfl
  simp [h1, habort]

/-- Claim C5, witness: a queue holding the pending insert `mProdIns` and
a preflight answering `PGRST205` abort the push with the state returned
verbatim. -/
theorem C5_preflight_abort_witness :
    getPendingMutations stExample.mutations ≠ [] ∧
    headAborts envAbort.head = true ∧
    pushPendingMutations envAbort stExample =
      ({ success := false, idMappings := [] }, stExample) :=
  ⟨by decide, by decide, C5_preflight_abort envAbort stExample (by decide) (by decide)⟩

/-- Claim C6, counterexample: pulling the unchanged remote twice is not
byte-for-byte idempotent — the second merge restamps `lastSyncedAt`, so
the record stored for `p1` after the second run differs from its value
after the first run. -/
theorem C6_counterexample :
    pullTwice "p1" ≠ pullOnce "p1" ∧
    pullOnce "p1" = some (remoteToLocal exRemoteP "T1") ∧
    pullTwice "p1" = some (remoteToLocal exRemoteP "T2") := by
  decide

/-- Claim C6, amended: running the products pull twice in a row with the
remote rows unchanged leaves every field of every local record identical
after the second run, except `lastSyncedAt`, which is restamped with the
second run's wall-clock time on each merged record. -/
theorem C6_amended_idempotent (rows : List RemoteProduct) (t1 t2 : String)
    (s0 : Store LocalProduct) (hnd : (rows.map RemoteProduct.id).Nodup) :
    ∀ i,
      (((syncProductsFromSupabase (FetchResult.ok rows) t2
          (syncProductsFromSupabase (FetchResult.ok rows) t1 s0).2).2 i).map normP)
        = (((syncProductsFromSupabase (FetchResult.ok rows) t1 s0).2 i).map normP) := by
  intro i
  show ((mergeRows t2 rows (mergeRows t1 rows s0)) i).map normP
      = ((mergeRows t1 rows s0) i).map normP
  exact mergeRows_idem rows t1 t2 s0 hnd i

/-- Claim C6, amended, witness: for the single remote row `exRemoteP`
the two pulls agree at `p1` once the sync stamp is erased. -/
theorem C6_amended_idempotent_witness :
    ([exRemoteP].map RemoteProduct.id).Nodup ∧
    (pullTwice "p1").map normP = (pullOnce "p1").map normP :=
  ⟨by decide,
   C6_amended_idempotent [exRemoteP] "T1" "T2" emptyStore (by decide) "p1"⟩

/-- Claim C7: when the products pull query reports the
relation-not-found condition (code `PGRST205` or a "Could not find the
table" message), `syncProductsFromSupabase` returns `true` and the local
store is returned verbatim — zero records merged, no synced flag
cleared, no record deleted. -/
theorem C7_schema_not_ready_pull (e : SupaError) (now : String) (s : Store LocalProduct)
    (h : e.code = "PGRST205" ∨ containsSubstr e.message "Could not find the table" = true) :
    syncProductsFromSupabase (FetchResult.err e) now s = (true, s) := by
  have hrel : isRelationNotFound e = true := by
    rcases h with h | h
    · simp [isRelationNotFound, h]
    · simp [isRelationNotFound, h]
  simp [syncProductsFromSupabase, hrel]

/-- Claim C7, witness: the `PGRST205` error against the empty store. -/
theorem C7_schema_not_ready_pull_witness :
    (errRelNotFound.code = "PGRST205" ∨
      containsSubstr errRelNotFound.message "Could not find the table" = true) ∧
    syncProductsFromSupabase (FetchResult.err errRelNotFound) "T"
      (emptyStore : Store LocalProduct) = (true, emptyStore) :=
  ⟨Or.inl rfl,
   C7_schema_not_ready_pull errRelNotFound "T" emptyStore (Or.inl rfl)⟩

/-- Claim C8: a `performFullSync` call made while another sync is in
progress, or within `SYNC_DEBOUNCE_MS` of the last attempt, returns
`false` with flags and world untouched (no pull, push, or store write);
and of two triggers within the debounce window from an idle state, the
first runs the pull+push body exactly once and the second is dropped, so
the world ends as after exactly one cycle. -/
theorem C8_sync_mutual_exclusion {α : Type} (body : α → Bool × α) (fl : SyncFlags)
    (w : α) (t1 t2 : Nat)
    (hidle : fl.syncInProgress = false)
    (hwin : SYNC_DEBOUNCE_MS ≤ t1 - fl.lastSyncAttempt)
    (hdeb : t2 - t1 < SYNC_DEBOUNCE_MS) :
    (∀ (fl2 : SyncFlags) (w2 : α),
        t2 - fl2.lastSyncAttempt < SYNC_DEBOUNCE_MS ∨ fl2.syncInProgress = true →
        performFullSync body fl2 w2 t2 = (false, fl2, w2)) ∧
    performFullSync body fl w t1 =
      ((body w).1, { syncInProgress := false, lastSyncAttempt := t1 }, (body w).2) ∧
    performFullSync body { syncInProgress := false, lastSyncAttempt := t1 } (body w).2 t2 =
      (false, { syncInProgress := false, lastSyncAttempt := t1 }, (body w).2) := by
  refine ⟨?_, ?_, ?_⟩
  · rintro fl2 w2 (h | h)
    · unfold performFullSync
      rw [if_pos h]
    · unfold performFullSync
      by_cases h2 : t2 - fl2.lastSyncAttempt < SYNC_DEBOUNCE_MS
      · rw [if_pos h2]
      · rw [if_neg h2, if_pos h]
  · unfold performFullSync
    rw [if_neg (Nat.not_lt.mpr hwin), if_neg (by simp [hidle])]
  · unfold performFullSync
    rw [if_pos hdeb]

/-- Claim C8, witness: from the initial state, a trigger at t=1000 runs
the body once (counter 0 → 1); a second trigger at t=1500 is dropped and
leaves the counter at 1. -/
theorem C8_sync_mutual_exclusion_witness :
    performFullSync syncBodyW { syncInProgress := false, lastSyncAttempt := 0 } 0 1000 =
      (true, { syncInProgress := false, lastSyncAttempt := 1000 }, 1) ∧
    performFullSync syncBodyW { syncInProgress := false, lastSyncAttempt := 1000 } 1 1500 =
      (false, { syncInProgress := false, lastSyncAttempt := 1000 }, 1) := by
  have h := C8_sync_mutual_exclusion syncBodyW
    { syncInProgress := false, lastSyncAttempt := 0 } 0 1000 1500 rfl (by decide) (by decide)
  exact ⟨h.2.1, h.2.2⟩

/-- Claim C9: `getStockStatus` classifies a product (with the
non-negative on-hand quantity the data model guarantees) as out of stock
exactly when the quantity is 0, low stock exactly when it is positive
and at most the low-stock threshold, and in stock exactly when it
exceeds the threshold. -/
theorem C9_stock_classification (p : LocalProduct) (h : 0 ≤ p.quantity) :
    ((getStockStatus p).label = "Out of Stock" ↔ p.quantity = 0) ∧
    ((getStockStatus p).label = "Low Stock" ↔
      (0 < p.quantity ∧ p.quantity ≤ p.low_stock_level)) ∧
    ((getStockStatus p).label = "In Stock" ↔
      (0 < p.quantity ∧ p.low_stock_level < p.quantity)) := by
  unfold getStockStatus
  split_ifs with h1 h2
  · refine ⟨⟨fun _ => h1, fun _ => rfl⟩, ?_, ?_⟩
    · exact ⟨fun hx => absurd hx (by decide), fun hx => absurd h1 (by omega)⟩
    · exact ⟨fun hx => absurd hx (by decide), fun hx => absurd h1 (by omega)⟩
  · refine ⟨?_, ⟨fun _ => ⟨by omega, h2⟩, fun _ => rfl⟩, ?_⟩
    · exact ⟨fun hx => absurd hx (by decide), fun hx => absurd hx h1⟩
    · exact ⟨fun hx => absurd hx (by decide), fun hx => absurd h2 (by omega)⟩
  · refine ⟨?_, ?_, ⟨fun _ => ⟨by omega, by omega⟩, fun _ => rfl⟩⟩
    · exact ⟨fun hx => absurd hx (by decide), fun hx => absurd hx h1⟩
    · exact ⟨fun hx => absurd hx (by decide), fun hx => absurd hx.2 h2⟩

/-- Claim C9, witness: quantity 7 with threshold 7 is Low Stock,
quantity 8 is In Stock, quantity 0 is Out of Stock. -/
theorem C9_stock_classification_witness :
    (0 : Int) ≤ pQ7.quantity ∧
    (getStockStatus pQ7).label = "Low Stock" ∧
    (getStockStatus pQ8).label = "In Stock" ∧
    (getStockStatus pQ0).label = "Out of Stock" :=
  ⟨by decide,
   (C9_stock_classification pQ7 (by decide)).2.1.mpr (by decide),
   (C9_stock_classification pQ8 (by decide)).2.2.mpr (by decide),
   (C9_stock_classification pQ0 (by decide)).1.mpr (by decide)⟩

/-- Claim C10: `retryFailedMutation` rewrites the addressed mutation to
status `pending`, retry count 0 and no error text — a full fresh retry
budget — and every other mutation of the queue is carried over
unchanged (and the queue keeps its length). -/
theorem C10_retry_reset (q : List MutationRecord) (mid : String) (m : MutationRecord)
    (hm : m ∈ q) :
    (m.id = mid →
      { m with status := MStatus.pending, retries := 0, lastError := none } ∈
        retryFailedMutation q mid) ∧
    (m.id ≠ mid → m ∈ retryFailedMutation q mid) ∧
    (retryFailedMutation q mid).length = q.length := by
  refine ⟨?_, ?_, by simp [retryFailedMutation]⟩
  · intro hid
    have h2 := List.mem_map_of_mem
      (fun m2 => if m2.id = mid then
          { m2 with status := MStatus.pending, retries := 0, lastError := none }
        else m2) hm
    simp only [if_pos hid] at h2
    exact h2
  · intro hid
    have h2 := List.mem_map_of_mem
      (fun m2 => if m2.id = mid then
          { m2 with status := MStatus.pending, retries := 0, lastError := none }
        else m2) hm
    simp only [if_neg hid] at h2
    exact h2

/-- Claim C10, witness: resetting `f1` in the queue `[mFailedEx,
mOtherEx]` yields the pending zero-retry record, while `g2` is carried
over unchanged. -/
theorem C10_retry_reset_witness :
    mFailedEx ∈ [mFailedEx, mOtherEx] ∧
    { mFailedEx with status := MStatus.pending, retries := 0, lastError := none } ∈
      retryFailedMutation [mFailedEx, mOtherEx] "f1" ∧
    mOtherEx ∈ retryFailedMutation [mFailedEx, mOtherEx] "f1" :=
  ⟨by decide,
   (C10_retry_reset [mFailedEx, mOtherEx] "f1" mFailedEx (by decide)).1 rfl,
   (C10_retry_reset [mFailedEx, mOtherEx] "f1" mOtherEx (by decide)).2.1 (by decide)⟩
